import Mathlib

/-!
Verification of the AudioMoth flash application core against its
natural-language specification.

The development shallowly embeds the relevant JavaScript functions of
`src/communication.js` and the renderer script (`app.js`) as Lean
functions.  Machine numbers are modelled as `Nat` (or `Int` where the
JavaScript value can become negative), with explicit masking where the
source masks.  Buffers are `List Nat` of byte values.
-/

namespace AudioMothFlash

/-! ## Constants (from `src/communication.js` and `app.js`) -/

/-- XMODEM start-of-header byte (`const SOH = 0x01`). -/
def SOH : Nat := 0x01

/-- XMODEM end-of-file byte (`const EOF = 0x04`). -/
def EOFbyte : Nat := 0x04

/-- XMODEM acknowledgement byte (`const ACK = 0x06`). -/
def ACKbyte : Nat := 0x06

/-- Padding byte for the final partial block (`const FILLER = 0xFF`). -/
def FILLER : Nat := 0xFF

/-- XMODEM payload size (`const BLOCK_SIZE = 128`). -/
def BLOCK_SIZE : Nat := 128

/-- Per-block retry budget (`const MAX_REPEATS = 10`). -/
def MAX_REPEATS : Nat := 10

/-- Size limit for non-destructive local flashes
(`const MAX_FILE_SIZE = 256 * 1024 - 0x4000` in `app.js`). -/
def MAX_FILE_SIZE : Nat := 256 * 1024 - 0x4000

/-- Size limit for destructive local flashes
(`const MAX_FILE_SIZE_DESTRUCTIVE = 256 * 1024` in `app.js`). -/
def MAX_FILE_SIZE_DESTRUCTIVE : Nat := 256 * 1024

/-- Size limit for MSD (USB drive) flashing
(`const MAX_FILE_SIZE_MSD = 0x00034000` in `src/communication.js`). -/
def MAX_FILE_SIZE_MSD : Nat := 0x00034000

/-- Device status constant `exports.STATUS_SERIAL_BOOTLOADER = 1`. -/
def STATUS_SERIAL_BOOTLOADER : Nat := 1

/-- Device status constant `exports.STATUS_AUDIOMOTH_AUTO = 3`. -/
def STATUS_AUDIOMOTH_AUTO : Nat := 3

/-! ## Block CRC (`crc16` in `src/communication.js`, lines 258-280) -/

/-- One iteration of the `crc16` loop body, translated statement by
statement from the source.  JavaScript 32-bit operations never overflow
here because every intermediate is masked to 16 bits or fewer. -/
def crc16Step (crc byte : Nat) : Nat :=
  let code := (crc >>> 8) &&& 0xFF
  let code := code ^^^ (byte &&& 0xFF)
  let code := code ^^^ (code >>> 4)
  let crc := (crc <<< 8) &&& 0xFFFF
  let crc := crc ^^^ code
  let code := (code <<< 5) &&& 0xFFFF
  let crc := crc ^^^ code
  let code := (code <<< 7) &&& 0xFFFF
  let crc := crc ^^^ code
  crc

/-- `crc16 (buffer)`: fold of `crc16Step` over the buffer starting from 0,
as in the source loop; the source returns the accumulator unmasked. -/
def crc16 (buffer : List Nat) : Nat :=
  buffer.foldl crc16Step 0

/-- Modelled from the spec words of claim C2 (single binding of `code`,
final term `(code << 7) & 0xFFFF`, result masked): this is the claimed
per-byte update, to be compared with the source`s `crc16Step`. -/
def crc16ClaimStep (crc b : Nat) : Nat :=
  let code := (crc >>> 8) &&& 0xFF
  let code := code ^^^ b
  let code := code ^^^ (code >>> 4)
  ((crc <<< 8) &&& 0xFFFF) ^^^ code ^^^ ((code <<< 5) &&& 0xFFFF) ^^^
    ((code <<< 7) &&& 0xFFFF)

/-- The CRC computation exactly as claim C2 words it. -/
def crc16Claim (buffer : List Nat) : Nat :=
  (buffer.foldl crc16ClaimStep 0) &&& 0xFFFF

/-- Amended per-byte update: identical to the claim except that the final
term is `((code << 12) & 0xFFFF)`, reflecting that the source shifts the
already-shifted `code` (`(code << 5) << 7`). -/
def crc16AmendedStep (crc b : Nat) : Nat :=
  let code := (crc >>> 8) &&& 0xFF
  let code := code ^^^ b
  let code := code ^^^ (code >>> 4)
  ((crc <<< 8) &&& 0xFFFF) ^^^ code ^^^ ((code <<< 5) &&& 0xFFFF) ^^^
    ((code <<< 12) &&& 0xFFFF)

/-- The amended claim-side CRC computation. -/
def crc16Amended (buffer : List Nat) : Nat :=
  (buffer.foldl crc16AmendedStep 0) &&& 0xFFFF

/-! ## XMODEM frame construction (`generateSendBuffer`, lines 986-1022) -/

/-- Big-endian base-16 digit string of `n`, modelling the JavaScript
`Number.prototype.toString(16)` (digits as values 0-15; `0` renders as
the single digit `0`). -/
def toHexDigits (n : Nat) : List Nat :=
  if n = 0 then [0] else (Nat.digits 16 n).reverse

/-- The CRC-string padding of `generateSendBuffer`: prepend a `0` digit
when the digit count is odd, then prepend two more `0` digits when the
digit count is exactly two. -/
def padCrcDigits (s : List Nat) : List Nat :=
  let s := if s.length % 2 = 1 then 0 :: s else s
  if s.length = 2 then 0 :: 0 :: s else s

/-- Byte decoding of a hex-digit string, modelling
`Buffer.from(str, hex)`: consecutive digit pairs become bytes. -/
def hexPairsToBytes : List Nat → List Nat
  | a :: b :: rest => (16 * a + b) :: hexPairsToBytes rest
  | _ => []

/-- The two-byte CRC trailer produced by `generateSendBuffer` for block
CRC value `c`. -/
def crcBuffer (c : Nat) : List Nat :=
  hexPairsToBytes (padCrcDigits (toHexDigits c))

/-- Truncation of a JavaScript number to a byte on entry to
`Buffer.from([x])`: values are reduced modulo 256 (negative values wrap,
as with `x & 255` in JavaScript). -/
def jsByte (x : Int) : Nat := (x % 256).toNat

/-- `generateSendBuffer (n)`: the on-wire XMODEM frame for the 0-based
block index `n`: SOH, block number `n+1`, inverse block number
`0xFF - (n+1)`, the 128-byte payload `splitBuffers[n]`, and the CRC
trailer.  `splitBuffers` is module state in the source and passed
explicitly here. -/
def generateSendBuffer (splitBuffers : List (List Nat)) (n : Nat) : List Nat :=
  let payload := splitBuffers.getD n []
  let bn : Int := (n : Int) + 1
  [SOH] ++ [jsByte bn] ++ [jsByte (255 - bn)] ++ payload ++
    crcBuffer (crc16 payload)

/-! ## Firmware splitting (`sendFirmware`, lines 1183-1228) -/

/-- The block-splitting loop of `sendFirmware`: while the buffer is
non-empty, emit a 128-byte block whose entry `i` is `buffer[i]`, or
`FILLER` when `buffer[i]` is out of range, then drop 128 bytes. -/
def splitFirmware (b : List Nat) : List (List Nat) :=
  if h : b = [] then []
  else
    ((List.range BLOCK_SIZE).map (fun i => b.getD i FILLER)) ::
      splitFirmware (b.drop BLOCK_SIZE)
termination_by b.length
decreasing_by
  simp only [List.length_drop]
  have hb : 0 < b.length := List.length_pos.mpr h
  simp only [BLOCK_SIZE]
  omega

/-! ## XMODEM transfer window (`sendFirmwareData`, lines 1030-1112) -/

/-- The module-level variables `lower`, `upper` and `numberOfRepeats`
that drive the XMODEM sending loop.  `lower` and `upper` are `Int`
because the JavaScript arithmetic on them can in principle go negative;
`numberOfRepeats` only ever counts up from zero. -/
structure XmodemState where
  lower : Int
  upper : Int
  numberOfRepeats : Nat

/-- The sending cursor computed at the top of each `sendFirmwareData`
iteration: `blockNumber = lower + numberOfRepeats % (upper - lower + 1)`.
`numberOfRepeats` is non-negative, so the JavaScript remainder agrees
with the mathematical one used here. -/
def curBlock (s : XmodemState) : Int :=
  s.lower + (s.numberOfRepeats : Int) % (s.upper - s.lower + 1)

/-- Outcome of one block transmission: the response timed out, the send
errored without timing out, or an ACK arrived. -/
inductive XmodemEvent
  | timeout
  | writeError
  | ack

/-- One iteration of `sendFirmwareData` after a block was transmitted.
`numberOfRepeats` is incremented before every send; on timeout
`upper = Math.min(Math.max(upper, blockNumber + 1), splitBuffers.length - 1)`;
on a non-timeout error the port is flushed and nothing else changes; on
ACK `numberOfRepeats = 0; lower = blockNumber + 1; upper = lower`. -/
def xmodemStep (N : Nat) (s : XmodemState) (e : XmodemEvent) : XmodemState :=
  match e with
  | .timeout =>
      { lower := s.lower,
        upper := min (max s.upper (curBlock s + 1)) ((N : Int) - 1),
        numberOfRepeats := s.numberOfRepeats + 1 }
  | .writeError => { s with numberOfRepeats := s.numberOfRepeats + 1 }
  | .ack =>
      { lower := curBlock s + 1,
        upper := curBlock s + 1,
        numberOfRepeats := 0 }

/-- States of the sending loop reachable from the initialisation in
`sendFirmware` (`numberOfRepeats = 0; lower = 0; upper = 0`).  A step
happens only when a block was actually sent, which requires
`blockNumber < splitBuffers.length` (otherwise the loop exits to EOF)
and `numberOfRepeats < MAX_REPEATS` (otherwise the flash is abandoned). -/
inductive XmodemReachable (N : Nat) : XmodemState → Prop
  | init : XmodemReachable N ⟨0, 0, 0⟩
  | step (s : XmodemState) (e : XmodemEvent) :
      XmodemReachable N s →
      s.numberOfRepeats < MAX_REPEATS →
      curBlock s < (N : Int) →
      XmodemReachable N (xmodemStep N s e)

/-! ## USB-HID image CRC (`USBHIDFlash`, lines 1496-1534) -/

/-- The CRC polynomial `const FIRMWARE_CRC_POLY = 0x1021`. -/
def FIRMWARE_CRC_POLY : Nat := 0x1021

/-- The padded image extent `const AM_FIRMWARE_TOTAL_SIZE = 240 * 1024`. -/
def AM_FIRMWARE_TOTAL_SIZE : Nat := 240 * 1024

/-- The inner `updateCRC (crc, incr)` of `USBHIDFlash`: `incr` is the
masked bit `byte & j`, used truthily. -/
def updateCRC (crc incr : Nat) : Nat :=
  let xor := crc >>> 15
  let out := (crc <<< 1) &&& 0xFFFF
  let out := if incr ≠ 0 then (out + 1) &&& 0xFFFF else out
  if xor ≠ 0 then out ^^^ FIRMWARE_CRC_POLY else out

/-- The inner bit loop `for (let j = 0x80; j > 0; j >>= 1)` applied to
one byte. -/
def hidByteFold (crc byte : Nat) : Nat :=
  [0x80, 0x40, 0x20, 0x10, 0x08, 0x04, 0x02, 0x01].foldl
    (fun c j => updateCRC c (byte &&& j)) crc

/-- The 16-bit CRC value `USBHIDFlash` computes when no expected CRC was
supplied: every byte position of the 240 KiB window contributes the
image byte, or `0xFF` past the image end, and 16 zero bits follow. -/
def hidCRCNum (firmwareData : List Nat) : Nat :=
  let c := (List.range AM_FIRMWARE_TOTAL_SIZE).foldl
    (fun c i =>
      hidByteFold c
        (if i < firmwareData.length then firmwareData.getD i 0 else 0xFF)) 0
  (List.range 16).foldl (fun c _ => updateCRC c 0) c

/-- Uppercase hexadecimal digit characters, as produced by
`Number.prototype.toString(16)` followed by `toUpperCase()`. -/
def hexDigitUpper (d : Nat) : Char :=
  "0123456789ABCDEF".toList.getD d '0'

/-- The rendering `('0000' + crc.toString(16).toUpperCase()).slice(-4)`:
left-pad the uppercase hex digits with `0` characters and keep the last
four characters. -/
def renderHex4Upper (n : Nat) : List Char :=
  let s := (toHexDigits n).map hexDigitUpper
  (List.replicate 4 '0' ++ s).drop s.length

/-- The four-character expected-CRC string `USBHIDFlash` computes
locally when the caller supplied none. -/
def hidExpectedCRC (firmwareData : List Nat) : List Char :=
  renderHex4Upper (hidCRCNum firmwareData)

/-- Modelled from the spec words of claim C4: the per-bit update
`xor = c >> 15; c = (c << 1) & 0xFFFF; if b: c |= 1; if xor: c ^= 0x1021`
over a boolean bit. -/
def updateCRCSpecBit (c : Nat) (b : Bool) : Nat :=
  let xor := c >>> 15
  let out := (c <<< 1) &&& 0xFFFF
  let out := if b then out ||| 1 else out
  if xor ≠ 0 then out ^^^ 0x1021 else out

/-- The eight bits of a byte, most significant first. -/
def byteBitsMSB (b : Nat) : List Bool :=
  [b.testBit 7, b.testBit 6, b.testBit 5, b.testBit 4,
    b.testBit 3, b.testBit 2, b.testBit 1, b.testBit 0]

/-- Modelled from the spec words of claim C4: the exact bit stream the
HID image CRC processes — the image bytes, then `0xFF` padding up to
240 KiB, MSB first, then 16 trailing zero bits. -/
def hidBitstream (firmwareData : List Nat) : List Bool :=
  ((firmwareData ++
      List.replicate (AM_FIRMWARE_TOTAL_SIZE - firmwareData.length) 0xFF).map
    byteBitsMSB).flatten ++ List.replicate 16 false

/-! ## Local-flash validation and dispatch (`app.js`) -/

/-- The three rejection reasons of the `flashButtonLocal` click handler. -/
inductive LocalFlashError
  | noFileSelected
  | fileMissing
  | fileTooLarge
deriving DecidableEq

/-- The validation chain of the `flashButtonLocal` click handler
(`app.js` lines 846-890): no path selected, path no longer on disk, or
binary larger than the destructive/non-destructive limit. -/
def flashButtonLocalCheck (haveFile filePresent : Bool) (size : Nat)
    (destructiveChecked : Bool) : Option LocalFlashError :=
  if !haveFile then some .noFileSelected
  else if !filePresent then some .fileMissing
  else if size >
      (if destructiveChecked then MAX_FILE_SIZE_DESTRUCTIVE
        else MAX_FILE_SIZE) then some .fileTooLarge
  else none

/-- The size gate of `uploadFirmwareToMsd` (`src/communication.js` lines
1926-1933): reject when the binary exceeds `MAX_FILE_SIZE_MSD`. -/
def msdSizeGateRejects (size : Nat) : Bool :=
  decide (size > MAX_FILE_SIZE_MSD)

/-- Inputs of `flashButtonOnClick`: the explicit arguments plus the
module-level state it reads. -/
structure DispatchState where
  communicating : Bool
  destructive : Bool
  filenameMatchesRelease : Bool
  userConfirmsOverwrite : Bool
  useUSBHIDFlashing : Bool
  supportsUSBHIDFlash : Bool
  overwriteBootloaderOptionEnabled : Bool
  destructiveCheckboxChecked : Bool
  deviceStatus : Nat
  firmwareNameValid : Bool
deriving DecidableEq

/-- Which flasher `flashButtonOnClick` hands the job to; `rejected`
covers every early return that starts no flasher. -/
inductive FlashRoute
  | rejected
  | serial
  | usbhid
deriving DecidableEq

/-- The route selection of `flashButtonOnClick` (`app.js` lines
660-772): early exits for a busy session and for the destructive-image
guards, then the USB-HID conditions
`useUSBHIDFlashing && supportsUSBHIDFlash && !overwriteBootloaderEnabled
&& deviceStatus !== STATUS_SERIAL_BOOTLOADER`, where
`overwriteBootloaderEnabled = overwriteBootloaderOptionEnabled &&
destructiveCheckbox.checked`; otherwise the serial path. -/
def flashButtonOnClick (s : DispatchState) : FlashRoute :=
  if s.communicating then .rejected
  else if s.destructive && s.filenameMatchesRelease then .rejected
  else if s.destructive && !s.userConfirmsOverwrite then .rejected
  else
    let overwriteBootloaderEnabled :=
      s.overwriteBootloaderOptionEnabled && s.destructiveCheckboxChecked
    if s.useUSBHIDFlashing && s.supportsUSBHIDFlash &&
        !overwriteBootloaderEnabled &&
        !(s.deviceStatus == STATUS_SERIAL_BOOTLOADER) then
      if s.firmwareNameValid then .usbhid else .rejected
    else .serial

/-! ## CRC verification after flashing (`crcCheck`, lines 897-945) -/

/-- The command byte `requestCRC` sends: `v` when the flash was
destructive, `c` otherwise. -/
def requestCRCReadType (isDestructive : Bool) : Char :=
  if isDestructive then 'v' else 'c'

/-- What `crcCheck` does after a CRC response arrives: either proceed to
`resetDevice` (which sends the single byte `r`), carrying the received
CRC as informational text when no expected CRC was known, or stop with a
verification failure and send no reset. -/
inductive CrcCheckOutcome
  | resetDevice (info : Option (List Char))
  | mismatchFailure (expected received : List Char)
deriving DecidableEq

/-- The decision logic of `crcCheck`: take the last four characters of
the response as `receivedCRC` (`response.substr(response.length - 4, 4)`);
when an `expectedCRC` is present compare and either reset or fail;
when none is present reset and pass `receivedCRC` through in the
completion message. -/
def crcCheck (response : List Char) (expectedCRC : Option (List Char)) :
    CrcCheckOutcome :=
  let receivedCRC := response.drop (response.length - 4)
  match expectedCRC with
  | some e =>
      if receivedCRC = e then .resetDevice none
      else .mismatchFailure e receivedCRC
  | none => .resetDevice (some receivedCRC)

/-! ## Port-open retry (`openPortAndSerialWrite`, `app.js` lines 379-441) -/

/-- Retry pacing `const PORT_OPEN_ATTEMPT_DELAY = 500`. -/
def PORT_OPEN_ATTEMPT_DELAY : Nat := 500

/-- Retry guard `const MAX_PORT_OPEN_ATTEMPTS = 5`. -/
def MAX_PORT_OPEN_ATTEMPTS : Nat := 5

/-- Result of the port-open retry loop: how many times
`getAudioMothPortName` ran, the delays slept between consecutive
attempts, and whether a port was obtained. -/
structure PortOpenRun where
  attempts : Nat
  delays : List Nat
  opened : Bool
deriving DecidableEq

/-- The retry loop of `openPortAndSerialWrite` over the reattempt
counter `r` (`portOpenReattempts`): when no port name is found and
`r <= MAX_PORT_OPEN_ATTEMPTS`, sleep `PORT_OPEN_ATTEMPT_DELAY * 2 ** r`,
increment the counter and retry; otherwise give up with a communication
failure.  `avail r` tells whether the device is visible on call `r`.
The structural `fuel` argument only bounds the recursion depth; from
the entry point below it is never exhausted, because the counter rises
by one per call and the loop stops once it exceeds
`MAX_PORT_OPEN_ATTEMPTS`. -/
def openPortAttemptLoop (avail : Nat → Bool) : Nat → Nat → PortOpenRun
  | r, fuel + 1 =>
    if avail r then ⟨1, [], true⟩
    else if r ≤ MAX_PORT_OPEN_ATTEMPTS then
      let rest := openPortAttemptLoop avail (r + 1) fuel
      ⟨rest.attempts + 1, PORT_OPEN_ATTEMPT_DELAY * 2 ^ r :: rest.delays,
        rest.opened⟩
    else ⟨1, [], false⟩
  | r, 0 => ⟨1, [], avail r⟩

/-- The whole retry procedure as entered from `flashButtonOnClick`:
`portOpenReattempts` starts at 0. -/
def openPortRun (avail : Nat → Bool) : PortOpenRun :=
  openPortAttemptLoop avail 0 (MAX_PORT_OPEN_ATTEMPTS + 2)

end AudioMothFlash

namespace AudioMothFlash

/-! ## Theorems for claim C2 -/

theorem crc16Step_lt (crc byte : Nat) : crc16Step crc byte < 65536 := by
  unfold crc16Step
  have h1 : (crc <<< 8) &&& 0xFFFF ≤ 0xFFFF := Nat.and_le_right
  have h2 : ∀ x : Nat, x &&& 0xFFFF ≤ 0xFFFF := fun x => Nat.and_le_right
  have hc : ((crc >>> 8) &&& 0xFF) ^^^ (byte &&& 0xFF) < 256 := by
    have ha : (crc >>> 8) &&& 0xFF < 256 :=
      Nat.lt_succ_of_le (Nat.and_le_right)
    have hb : byte &&& 0xFF < 256 := Nat.lt_succ_of_le (Nat.and_le_right)
    exact Nat.xor_lt_two_pow (n := 8) ha hb
  have hcode : (((crc >>> 8) &&& 0xFF) ^^^ (byte &&& 0xFF)) ^^^
      ((((crc >>> 8) &&& 0xFF) ^^^ (byte &&& 0xFF)) >>> 4) < 256 := by
    refine Nat.xor_lt_two_pow (n := 8) hc ?_
    calc (((crc >>> 8) &&& 0xFF) ^^^ (byte &&& 0xFF)) >>> 4
        ≤ ((crc >>> 8) &&& 0xFF) ^^^ (byte &&& 0xFF) := by
          rw [Nat.shiftRight_eq_div_pow]; exact Nat.div_le_self _ _
      _ < 256 := hc
  refine Nat.xor_lt_two_pow (n := 16) ?_ (Nat.lt_succ_of_le Nat.and_le_right)
  refine Nat.xor_lt_two_pow (n := 16) ?_ (Nat.lt_succ_of_le Nat.and_le_right)
  refine Nat.xor_lt_two_pow (n := 16) (Nat.lt_succ_of_le Nat.and_le_right) ?_
  exact lt_trans hcode (by norm_num)

theorem crc16_foldl_lt (bs : List Nat) :
    ∀ acc : Nat, acc < 65536 → bs.foldl crc16Step acc < 65536 := by
  induction bs with
  | nil => intro acc hacc; exact hacc
  | cons c cs ihs =>
      intro acc _
      rw [List.foldl_cons]
      exact ihs _ (crc16Step_lt acc c)

theorem crc16_lt (buffer : List Nat) : crc16 buffer < 65536 :=
  crc16_foldl_lt buffer 0 (by norm_num)

theorem and_mask16 (x : Nat) : x &&& 0xFFFF = x % 65536 := by
  have h := Nat.and_pow_two_sub_one_eq_mod x 16
  norm_num at h
  exact h

theorem and_mask8 (x : Nat) : x &&& 0xFF = x % 256 := by
  have h := Nat.and_pow_two_sub_one_eq_mod x 8
  norm_num at h
  exact h

theorem codeVal_lt (a b : Nat) (hb : b < 256) :
    ((a &&& 0xFF) ^^^ b) ^^^ (((a &&& 0xFF) ^^^ b) >>> 4) < 256 := by
  have ha : a &&& 0xFF < 256 := Nat.lt_succ_of_le Nat.and_le_right
  have hx : (a &&& 0xFF) ^^^ b < 256 := Nat.xor_lt_two_pow (n := 8) ha hb
  refine Nat.xor_lt_two_pow (n := 8) hx ?_
  calc ((a &&& 0xFF) ^^^ b) >>> 4 ≤ (a &&& 0xFF) ^^^ b := by
        rw [Nat.shiftRight_eq_div_pow]; exact Nat.div_le_self _ _
    _ < 256 := hx

theorem shift5_then_7 (c : Nat) (hc : c < 256) :
    (((c <<< 5) &&& 0xFFFF) <<< 7) &&& 0xFFFF = (c <<< 12) &&& 0xFFFF := by
  have h5 : (c <<< 5) &&& 0xFFFF = c <<< 5 := by
    rw [and_mask16]
    exact Nat.mod_eq_of_lt (by rw [Nat.shiftLeft_eq]; norm_num; omega)
  rw [h5, ← Nat.shiftLeft_add]

theorem crc16Step_eq_amended (crc b : Nat) (hb : b < 256) :
    crc16Step crc b = crc16AmendedStep crc b := by
  have hb8 : b &&& 0xFF = b := by rw [and_mask8]; exact Nat.mod_eq_of_lt hb
  unfold crc16Step crc16AmendedStep
  simp only [hb8]
  rw [shift5_then_7 _ (codeVal_lt (crc >>> 8) b hb)]

theorem crc16_foldl_eq_amended (buffer : List Nat)
    (hbytes : ∀ b ∈ buffer, b < 256) :
    ∀ acc : Nat, buffer.foldl crc16Step acc = buffer.foldl crc16AmendedStep acc := by
  induction buffer with
  | nil => intro acc; rfl
  | cons c cs ih =>
      intro acc
      rw [List.foldl_cons, List.foldl_cons,
        crc16Step_eq_amended acc c (hbytes c (List.mem_cons_self c cs))]
      exact ih (fun b hb => hbytes b (List.mem_cons_of_mem c hb)) _

/-- claim C2, counterexample: on the single-byte input `[0x01]` the
formula exactly as the claim words it yields `0xA1`, while the source
`crc16` yields `0x1021`.  The claim, read literally, is false. -/
theorem c2_counterexample :
    crc16Claim [0x01] = 0xA1 ∧ crc16 [0x01] = 0x1021 ∧
      crc16Claim [0x01] ≠ crc16 [0x01] := by
  refine ⟨by decide, by decide, by decide⟩

/-- claim C2 (amended): for every input byte sequence, `crc16` computes,
starting from `crc = 0` and for each byte `b`:
`code = (crc >> 8) & 0xFF; code ^= b; code ^= code >> 4;
crc = ((crc << 8) & 0xFFFF) ^ code ^ ((code << 5) & 0xFFFF) ^ ((code << 12) & 0xFFFF)`
(the last shift is cumulative in the source: `(code << 5) << 7`), and the
returned value already equals `crc & 0xFFFF`. -/
theorem c2_crc16_amended (buffer : List Nat) (hbytes : ∀ b ∈ buffer, b < 256) :
    crc16 buffer = crc16Amended buffer ∧ crc16 buffer &&& 0xFFFF = crc16 buffer := by
  have hmask : crc16 buffer &&& 0xFFFF = crc16 buffer := by
    rw [and_mask16]
    exact Nat.mod_eq_of_lt (crc16_lt buffer)
  refine ⟨?_, hmask⟩
  unfold crc16Amended
  rw [← crc16_foldl_eq_amended buffer hbytes 0]
  exact hmask.symm

/-- claim C2, witness: the amended theorem instantiated at the concrete
buffer `[0x01, 0xAB]`. -/
theorem c2_crc16_amended_witness :
    crc16 [0x01, 0xAB] = crc16Amended [0x01, 0xAB] ∧
      crc16 [0x01, 0xAB] &&& 0xFFFF = crc16 [0x01, 0xAB] :=
  c2_crc16_amended [0x01, 0xAB] (by decide)

/-! ## Hex-digit lemmas for the CRC trailer -/

theorem beVal_eq_ofDigits (l : List Nat) :
    l.reverse.foldl (fun a d => 16 * a + d) 0 = Nat.ofDigits 16 l := by
  rw [List.foldl_reverse]
  induction l with
  | nil => rfl
  | cons d ds ih =>
      rw [List.foldr_cons, ih, Nat.ofDigits_cons]
      push_cast
      ring

theorem beVal_toHexDigits (n : Nat) :
    (toHexDigits n).foldl (fun a d => 16 * a + d) 0 = n := by
  unfold toHexDigits
  by_cases h : n = 0
  · simp [h]
  · rw [if_neg h, beVal_eq_ofDigits, Nat.ofDigits_digits]

theorem toHexDigits_lt (n : Nat) : ∀ d ∈ toHexDigits n, d < 16 := by
  unfold toHexDigits
  by_cases h : n = 0
  · simp [h]
  · rw [if_neg h]
    intro d hd
    exact Nat.digits_lt_base (by norm_num) (List.mem_reverse.mp hd)

theorem toHexDigits_length_le (n : Nat) (hn : n < 65536) :
    1 ≤ (toHexDigits n).length ∧ (toHexDigits n).length ≤ 4 := by
  unfold toHexDigits
  by_cases h : n = 0
  · simp [h]
  · rw [if_neg h]
    constructor
    · rw [Nat.one_le_iff_ne_zero]
      simp [Nat.digits_ne_nil_iff_ne_zero, h]
    · rw [List.length_reverse, Nat.digits_len 16 n (by norm_num) h]
      have hlog : Nat.log 16 n < 4 :=
        Nat.log_lt_of_lt_pow h (by norm_num; omega)
      omega

theorem padCrcDigits_one (a : Nat) : padCrcDigits [a] = [0, 0, 0, a] := by
  simp [padCrcDigits]

theorem padCrcDigits_two (a b : Nat) : padCrcDigits [a, b] = [0, 0, a, b] := by
  simp [padCrcDigits]

theorem padCrcDigits_three (a b c : Nat) :
    padCrcDigits [a, b, c] = [0, a, b, c] := by
  simp [padCrcDigits]

theorem padCrcDigits_four (a b c d : Nat) :
    padCrcDigits [a, b, c, d] = [a, b, c, d] := by
  simp [padCrcDigits]

theorem crcBuffer_eq (c : Nat) (hc : c < 65536) :
    crcBuffer c = [c / 256, c % 256] := by
  have hval := beVal_toHexDigits c
  have hdig := toHexDigits_lt c
  have hlen := toHexDigits_length_le c hc
  unfold crcBuffer
  rcases hs : toHexDigits c with _ | ⟨a, _ | ⟨b, _ | ⟨d, _ | ⟨e, rest⟩⟩⟩⟩
  · rw [hs] at hlen; simp at hlen
  · rw [hs] at hval hdig
    have ha := hdig a (by simp)
    rw [padCrcDigits_one,
      show hexPairsToBytes [0, 0, 0, a] = [16 * 0 + 0, 16 * 0 + a] from rfl]
    simp only [List.foldl_cons, List.foldl_nil] at hval
    simp only [List.cons.injEq, and_true]
    exact ⟨by omega, by omega⟩
  · rw [hs] at hval hdig
    have ha := hdig a (by simp)
    have hb := hdig b (by simp)
    rw [padCrcDigits_two,
      show hexPairsToBytes [0, 0, a, b] = [16 * 0 + 0, 16 * a + b] from rfl]
    simp only [List.foldl_cons, List.foldl_nil] at hval
    simp only [List.cons.injEq, and_true]
    exact ⟨by omega, by omega⟩
  · rw [hs] at hval hdig
    have ha := hdig a (by simp)
    have hb := hdig b (by simp)
    have hd := hdig d (by simp)
    rw [padCrcDigits_three,
      show hexPairsToBytes [0, a, b, d] = [16 * 0 + a, 16 * b + d] from rfl]
    simp only [List.foldl_cons, List.foldl_nil] at hval
    simp only [List.cons.injEq, and_true]
    exact ⟨by omega, by omega⟩
  · rcases rest with _ | ⟨f, rest2⟩
    · rw [hs] at hval hdig
      have ha := hdig a (by simp)
      have hb := hdig b (by simp)
      have hd := hdig d (by simp)
      have he := hdig e (by simp)
      rw [padCrcDigits_four,
        show hexPairsToBytes [a, b, d, e] = [16 * a + b, 16 * d + e] from rfl]
      simp only [List.foldl_cons, List.foldl_nil] at hval
      simp only [List.cons.injEq, and_true]
      exact ⟨by omega, by omega⟩
    · rw [hs] at hlen
      simp at hlen

theorem crcBuffer_length (c : Nat) (hc : c < 65536) :
    (crcBuffer c).length = 2 := by
  rw [crcBuffer_eq c hc]
  rfl

/-! ## Frame lemmas for claims C3 and C10 -/

theorem jsByte_lt (x : Int) : jsByte x < 256 := by
  unfold jsByte; omega

theorem jsByte_inverse (x : Int) : jsByte (255 - x) = 255 - jsByte x := by
  unfold jsByte; omega

theorem generateSendBuffer_shape (blocks : List (List Nat)) (n : Nat) :
    generateSendBuffer blocks n =
      SOH :: jsByte ((n : Int) + 1) :: jsByte (255 - ((n : Int) + 1)) ::
        (blocks.getD n [] ++ crcBuffer (crc16 (blocks.getD n []))) := rfl

theorem payload_length (blocks : List (List Nat)) (n : Nat)
    (hn : n < blocks.length) (h128 : ∀ blk ∈ blocks, blk.length = 128) :
    (blocks.getD n []).length = 128 := by
  have hget : blocks.getD n [] = blocks[n] := by
    simp [List.getD_eq_getElem?_getD, List.getElem?_eq_getElem hn]
  rw [hget]
  exact h128 _ (List.getElem_mem hn)

/-- claim C3: for every block index within the image, the on-wire XMODEM
frame produced by `generateSendBuffer` is exactly 133 bytes, starts with
`0x01`, its third byte is `0xFF` minus its second, its bytes 3 to 130 are
the 128-byte payload, and its last two bytes are the big-endian 16-bit
`crc16` of that payload. -/
theorem c3_generateSendBuffer_frame (blocks : List (List Nat)) (n : Nat)
    (hn : n < blocks.length) (h128 : ∀ blk ∈ blocks, blk.length = 128) :
    (generateSendBuffer blocks n).length = 133 ∧
    (generateSendBuffer blocks n).getD 0 0 = 0x01 ∧
    (generateSendBuffer blocks n).getD 2 0 =
      0xFF - (generateSendBuffer blocks n).getD 1 0 ∧
    ((generateSendBuffer blocks n).drop 3).take 128 = blocks.getD n [] ∧
    (generateSendBuffer blocks n).drop 131 =
      [crc16 (blocks.getD n []) / 256, crc16 (blocks.getD n []) % 256] := by
  have hp := payload_length blocks n hn h128
  have hcrc : (crcBuffer (crc16 (blocks.getD n []))).length = 2 :=
    crcBuffer_length _ (crc16_lt _)
  rw [generateSendBuffer_shape]
  refine ⟨?_, rfl, ?_, ?_, ?_⟩
  · simp only [List.length_cons, List.length_append, hp, hcrc]
  · simp only [List.getD_cons_succ, List.getD_cons_zero]
    exact jsByte_inverse ((n : Int) + 1)
  · show (blocks.getD n [] ++ crcBuffer (crc16 (blocks.getD n []))).take 128 = _
    exact List.take_left' hp
  · have hsplit : SOH :: jsByte ((n : Int) + 1) ::
        jsByte (255 - ((n : Int) + 1)) ::
        (blocks.getD n [] ++ crcBuffer (crc16 (blocks.getD n []))) =
        (SOH :: jsByte ((n : Int) + 1) :: jsByte (255 - ((n : Int) + 1)) ::
          blocks.getD n []) ++ crcBuffer (crc16 (blocks.getD n [])) := by
      simp
    rw [hsplit, List.drop_left' (by simp only [List.length_cons, hp]), crcBuffer_eq _ (crc16_lt _)]

/-! ## Transfer-window invariant for claim C1 -/

theorem curBlock_bounds (s : XmodemState) (h0 : 0 ≤ s.lower)
    (hlu : s.lower ≤ s.upper) :
    s.lower ≤ curBlock s ∧ curBlock s ≤ s.upper := by
  have hw : (0 : Int) < s.upper - s.lower + 1 := by omega
  have hm0 : 0 ≤ (s.numberOfRepeats : Int) % (s.upper - s.lower + 1) :=
    Int.emod_nonneg _ (by omega)
  have hmlt : (s.numberOfRepeats : Int) % (s.upper - s.lower + 1) <
      s.upper - s.lower + 1 := Int.emod_lt_of_pos _ hw
  unfold curBlock
  omega

/-- claim C1: throughout every XMODEM transfer, every reachable state of
the sending loop satisfies `0 ≤ lower ≤ upper ≤ N_blocks`, and each step
follows the stated rules: the block to send is
`cur = lower + (numberOfRepeats % (upper - lower + 1))`; a timeout keeps
`lower` and sets `upper` to `max(upper, cur + 1)` clamped to
`N_blocks - 1`; an ACK resets `numberOfRepeats` and moves both `lower`
and `upper` to `cur + 1`. -/
theorem c1_xmodem_window_invariant (N : Nat) (s : XmodemState)
    (h : XmodemReachable N s) :
    (0 ≤ s.lower ∧ s.lower ≤ s.upper ∧ s.upper ≤ (N : Int)) ∧
    curBlock s =
      s.lower + (s.numberOfRepeats : Int) % (s.upper - s.lower + 1) ∧
    (xmodemStep N s .timeout).lower = s.lower ∧
    (xmodemStep N s .timeout).upper =
      min (max s.upper (curBlock s + 1)) ((N : Int) - 1) ∧
    (xmodemStep N s .ack).numberOfRepeats = 0 ∧
    (xmodemStep N s .ack).lower = curBlock s + 1 ∧
    (xmodemStep N s .ack).upper = curBlock s + 1 := by
  refine ⟨?_, rfl, rfl, rfl, rfl, rfl, rfl⟩
  induction h with
  | init =>
      refine ⟨le_rfl, le_rfl, ?_⟩
      show (0 : Int) ≤ (N : Int)
      exact_mod_cast Nat.zero_le N
  | step s e hr hrep hcur ih =>
      obtain ⟨h0, hlu, hun⟩ := ih
      obtain ⟨hcb1, hcb2⟩ := curBlock_bounds s h0 hlu
      cases e with
      | timeout =>
          dsimp only [xmodemStep]
          omega
      | writeError =>
          dsimp only [xmodemStep]
          exact ⟨h0, hlu, hun⟩
      | ack =>
          dsimp only [xmodemStep]
          omega

/-- claim C1, witness: the invariant instantiated at the initial state
of a two-block transfer, reachable by construction. -/
theorem c1_xmodem_window_invariant_witness :
    0 ≤ (XmodemState.mk 0 0 0).lower ∧
    (XmodemState.mk 0 0 0).lower ≤ (XmodemState.mk 0 0 0).upper ∧
    (XmodemState.mk 0 0 0).upper ≤ ((2 : Nat) : Int) :=
  (c1_xmodem_window_invariant 2 ⟨0, 0, 0⟩ XmodemReachable.init).1

/-! ## Splitting lemmas for claim C5 -/

theorem map_getD_range (d : Nat) : ∀ (n : Nat) (b : List Nat),
    (List.range n).map (fun i => b.getD i d) =
      b.take n ++ List.replicate (n - b.length) d := by
  intro n
  induction n with
  | zero => intro b; simp
  | succ n ih =>
      intro b
      rw [List.range_succ, List.map_append, ih b]
      by_cases h : n < b.length
      · have h1 : n + 1 - b.length = 0 := by omega
        have h0 : n - b.length = 0 := by omega
        rw [h0, h1]
        simp only [List.replicate_zero, List.append_nil]
        rw [List.take_succ]
        simp [List.getD_eq_getElem?_getD, List.getElem?_eq_getElem h]
      · have hle : b.length ≤ n := Nat.le_of_not_lt h
        have hgetD : b.getD n d = d := List.getD_eq_default _ _ hle
        rw [List.take_of_length_le hle, List.take_of_length_le (by omega),
          show n + 1 - b.length = (n - b.length) + 1 from by omega,
          List.replicate_succ']
        simp only [List.map_cons, List.map_nil]
        rw [hgetD, List.append_assoc]

theorem splitFirmware_nil : splitFirmware [] = [] := by
  rw [splitFirmware]
  simp

theorem splitFirmware_spec : ∀ (N : Nat) (b : List Nat), b.length ≤ N →
    (splitFirmware b).length = (b.length + 127) / 128 ∧
    (∀ blk ∈ splitFirmware b, blk.length = 128) ∧
    (splitFirmware b).flatten =
      b ++ List.replicate (128 * ((b.length + 127) / 128) - b.length) FILLER := by
  intro N
  induction N with
  | zero =>
      intro b hb
      have hnil : b = [] := List.eq_nil_of_length_eq_zero (by omega)
      subst hnil
      refine ⟨by rw [splitFirmware_nil]; decide, ?_,
        by rw [splitFirmware_nil]; decide⟩
      intro blk hblk
      rw [splitFirmware_nil] at hblk
      simp at hblk
  | succ N ih =>
      intro b hb
      by_cases hnil : b = []
      · subst hnil
        refine ⟨by rw [splitFirmware_nil]; decide, ?_,
          by rw [splitFirmware_nil]; decide⟩
        intro blk hblk
        rw [splitFirmware_nil] at hblk
        simp at hblk
      · have hlen : 0 < b.length := List.length_pos.mpr hnil
        have hstep : splitFirmware b =
            ((List.range 128).map (fun i => b.getD i FILLER)) ::
              splitFirmware (b.drop 128) := by
          rw [splitFirmware]
          simp [hnil, BLOCK_SIZE]
        have hdroplen : (b.drop 128).length = b.length - 128 := by simp
        obtain ⟨hcnt, hblocks, hjoin⟩ :=
          ih (b.drop 128) (by simp; omega)
        have hblock : (List.range 128).map (fun i => b.getD i FILLER) =
            b.take 128 ++ List.replicate (128 - b.length) FILLER :=
          map_getD_range FILLER 128 b
        refine ⟨?_, ?_, ?_⟩
        · rw [hstep]
          simp only [List.length_cons, hcnt, hdroplen]
          omega
        · intro blk hblk
          rw [hstep] at hblk
          rcases List.mem_cons.mp hblk with hhd | htl
          · rw [hhd, hblock]
            simp only [List.length_append, List.length_take,
              List.length_replicate]
            omega
          · exact hblocks blk htl
        · rw [hstep, List.flatten_cons, hjoin, hblock, hdroplen]
          by_cases hL : 128 ≤ b.length
          · have hz : 128 - b.length = 0 := by omega
            rw [hz, List.replicate_zero, List.append_nil, ← List.append_assoc,
              List.take_append_drop]
            have hc : 128 * ((b.length - 128 + 127) / 128) -
                (b.length - 128) =
                128 * ((b.length + 127) / 128) - b.length := by omega
            rw [hc]
          · have hdropnil : b.drop 128 = [] :=
              List.drop_eq_nil_of_le (by omega)
            have hz : 128 * ((b.length - 128 + 127) / 128) -
                (b.length - 128) = 0 := by omega
            have hc : 128 - b.length =
                128 * ((b.length + 127) / 128) - b.length := by omega
            rw [hdropnil, hz, List.take_of_length_le (by omega), hc]
            simp

/-- claim C5: for every non-empty firmware image, the splitting loop of
`sendFirmware` produces exactly the ceiling of `length / 128` blocks,
each 128 bytes long, and their concatenation is the image followed by
`0xFF` filler completing the final partial block. -/
theorem c5_sendFirmware_split (b : List Nat) (hb : b ≠ []) :
    (splitFirmware b).length = (b.length + 127) / 128 ∧
    (∀ blk ∈ splitFirmware b, blk.length = 128) ∧
    (splitFirmware b).flatten =
      b ++ List.replicate
        (128 * ((b.length + 127) / 128) - b.length) FILLER :=
  splitFirmware_spec b.length b le_rfl

/-- claim C5, witness: the splitting theorem instantiated at the
three-byte image `[1, 2, 3]`. -/
theorem c5_sendFirmware_split_witness :
    (splitFirmware [1, 2, 3]).length = (([1, 2, 3] : List Nat).length + 127) / 128 ∧
    (∀ blk ∈ splitFirmware [1, 2, 3], blk.length = 128) ∧
    (splitFirmware [1, 2, 3]).flatten =
      [1, 2, 3] ++ List.replicate
        (128 * ((([1, 2, 3] : List Nat).length + 127) / 128) -
          ([1, 2, 3] : List Nat).length) FILLER :=
  c5_sendFirmware_split [1, 2, 3] (by decide)

/-- claim C3, witness: the frame theorem instantiated at a one-block
image whose single block is 128 zero bytes. -/
theorem c3_generateSendBuffer_frame_witness :
    (generateSendBuffer [List.replicate 128 0] 0).length = 133 ∧
    (generateSendBuffer [List.replicate 128 0] 0).getD 0 0 = 0x01 ∧
    (generateSendBuffer [List.replicate 128 0] 0).getD 2 0 =
      0xFF - (generateSendBuffer [List.replicate 128 0] 0).getD 1 0 ∧
    ((generateSendBuffer [List.replicate 128 0] 0).drop 3).take 128 =
      [List.replicate 128 0].getD 0 [] ∧
    (generateSendBuffer [List.replicate 128 0] 0).drop 131 =
      [crc16 ([List.replicate 128 0].getD 0 []) / 256,
        crc16 ([List.replicate 128 0].getD 0 []) % 256] :=
  c3_generateSendBuffer_frame [List.replicate 128 0] 0 (by decide)
    (by simp)

end AudioMothFlash

namespace AudioMothFlash

/-! ## Block-number wrap-around for claim C10 -/

theorem generateSendBuffer_byte1 (blocks : List (List Nat)) (n : Nat) :
    (generateSendBuffer blocks n).getD 1 0 = (n + 1) % 256 := by
  rw [generateSendBuffer_shape]
  simp only [List.getD_cons_succ, List.getD_cons_zero]
  unfold jsByte
  omega

/-- claim C10: the on-wire block-number byte of the frame for 0-based
index `n` is `(n + 1) mod 256`, the inverse byte is
`(0xFF - (n + 1)) mod 256` (mathematical remainder of the possibly
negative integer), so any two indices congruent modulo 256 produce the
same block-number byte — and the size gates permit images of up to
`MAX_FILE_SIZE_DESTRUCTIVE / BLOCK_SIZE = 2048` blocks, far beyond the
`255 * 128 = 32640` bytes at which wrap-around begins. -/
theorem c10_blockNumber_wraps (blocks : List (List Nat)) (n : Nat)
    (hn : n < blocks.length) :
    (generateSendBuffer blocks n).getD 1 0 = (n + 1) % 256 ∧
    (generateSendBuffer blocks n).getD 2 0 =
      (((0xFF : Int) - ((n : Int) + 1)) % 256).toNat ∧
    (∀ m : Nat, (n + 1) % 256 = (m + 1) % 256 →
      (generateSendBuffer blocks n).getD 1 0 =
        (generateSendBuffer blocks m).getD 1 0) ∧
    MAX_FILE_SIZE_DESTRUCTIVE / BLOCK_SIZE = 2048 ∧
    255 * BLOCK_SIZE = 32640 := by
  refine ⟨generateSendBuffer_byte1 blocks n, ?_, ?_, by decide, by decide⟩
  · rw [generateSendBuffer_shape]
    simp only [List.getD_cons_succ, List.getD_cons_zero]
    rfl
  · intro m hm
    rw [generateSendBuffer_byte1, generateSendBuffer_byte1, hm]

/-- claim C10, witness: the wrap-around theorem instantiated at block 0
of a 257-block image; blocks 0 and 256 then share block number 1. -/
theorem c10_blockNumber_wraps_witness :
    (generateSendBuffer (List.replicate 257 []) 0).getD 1 0 = (0 + 1) % 256 ∧
    (generateSendBuffer (List.replicate 257 []) 0).getD 2 0 =
      (((0xFF : Int) - ((0 : Nat) + 1)) % 256).toNat ∧
    (∀ m : Nat, (0 + 1) % 256 = (m + 1) % 256 →
      (generateSendBuffer (List.replicate 257 []) 0).getD 1 0 =
        (generateSendBuffer (List.replicate 257 []) m).getD 1 0) ∧
    MAX_FILE_SIZE_DESTRUCTIVE / BLOCK_SIZE = 2048 ∧
    255 * BLOCK_SIZE = 32640 :=
  c10_blockNumber_wraps (List.replicate 257 []) 0
    (by rw [List.length_replicate]; omega)

end AudioMothFlash

namespace AudioMothFlash

/-! ## Bit-level lemmas for the USB-HID image CRC (claim C4) -/

theorem two_mul_lor_one (m : Nat) : 2 * m ||| 1 = 2 * m + 1 := by
  apply Nat.eq_of_testBit_eq
  intro i
  cases i with
  | zero =>
      have e1 : 2 * m % 2 = 0 := by omega
      have e2 : (2 * m + 1) % 2 = 1 := by omega
      simp only [Nat.testBit_lor, Nat.testBit_zero]
      simp [e1, e2]
  | succ i =>
      have h2 : (2 * m) / 2 = m := by omega
      have h3 : (2 * m + 1) / 2 = m := by omega
      have h4 : (1 : Nat) / 2 = 0 := by omega
      simp only [Nat.testBit_lor]
      simp only [Nat.testBit_succ]
      rw [h2, h3, h4]
      simp [Nat.zero_testBit]

theorem updateCRC_eq_specBit (c byte k : Nat) :
    updateCRC c (byte &&& 2 ^ k) = updateCRCSpecBit c (byte.testBit k) := by
  unfold updateCRC updateCRCSpecBit
  have hout : (c <<< 1) &&& 0xFFFF = 2 * (c % 32768) := by
    rw [Nat.shiftLeft_eq, and_mask16]
    omega
  have hand := Nat.and_two_pow byte k
  cases hb : byte.testBit k
  · rw [hb] at hand
    simp only [Bool.toNat_false, Nat.zero_mul, hand]
    simp [FIRMWARE_CRC_POLY]
  · rw [hb] at hand
    simp only [Bool.toNat_true, Nat.one_mul] at hand
    rw [hand]
    have hne : (2 : Nat) ^ k ≠ 0 :=
      Nat.pos_iff_ne_zero.mp (Nat.pos_pow_of_pos k (by norm_num))
    simp only [if_true, hne, ne_eq, not_false_eq_true, if_pos, ite_true]
    rw [hout]
    have hlt : 2 * (c % 32768) + 1 < 65536 := by omega
    rw [show (2 * (c % 32768) + 1) &&& 0xFFFF = 2 * (c % 32768) + 1 from by
        rw [and_mask16]; exact Nat.mod_eq_of_lt hlt,
      two_mul_lor_one, show FIRMWARE_CRC_POLY = (4129 : Nat) from rfl]

end AudioMothFlash

namespace AudioMothFlash

theorem updateCRC_zero (c : Nat) : updateCRC c 0 = updateCRCSpecBit c false := by
  unfold updateCRC updateCRCSpecBit
  simp [FIRMWARE_CRC_POLY]

theorem hidByteFold_eq_bits (c byte : Nat) :
    hidByteFold c byte = (byteBitsMSB byte).foldl updateCRCSpecBit c := by
  have h7 := fun x => updateCRC_eq_specBit x byte 7
  have h6 := fun x => updateCRC_eq_specBit x byte 6
  have h5 := fun x => updateCRC_eq_specBit x byte 5
  have h4 := fun x => updateCRC_eq_specBit x byte 4
  have h3 := fun x => updateCRC_eq_specBit x byte 3
  have h2 := fun x => updateCRC_eq_specBit x byte 2
  have h1 := fun x => updateCRC_eq_specBit x byte 1
  have h0 : ∀ x : Nat, updateCRC x (byte &&& 1) =
      updateCRCSpecBit x (byte.testBit 0) := by
    intro x
    have h := updateCRC_eq_specBit x byte 0
    rw [pow_zero] at h
    exact h
  norm_num at h7 h6 h5 h4 h3 h2 h1
  unfold hidByteFold byteBitsMSB
  simp only [List.foldl_cons, List.foldl_nil]
  rw [h7, h6, h5, h4, h3, h2, h1, h0]

theorem foldl_range_getD (h : Nat → Nat → Nat) :
    ∀ (l : List Nat) (acc : Nat),
      (List.range l.length).foldl (fun c i => h c (l.getD i 0)) acc =
        l.foldl h acc := by
  intro l
  induction l with
  | nil => intro acc; simp
  | cons x xs ih =>
      intro acc
      rw [List.length_cons, List.range_succ_eq_map, List.foldl_cons,
        List.foldl_map, List.foldl_cons]
      simp only [List.getD_cons_zero, List.getD_cons_succ, Nat.succ_eq_add_one]
      exact ih (h acc x)

theorem foldl_range_congr (f g : Nat → Nat → Nat) :
    ∀ (n : Nat), (∀ c i, i < n → f c i = g c i) →
      ∀ acc, (List.range n).foldl f acc = (List.range n).foldl g acc := by
  intro n
  induction n with
  | zero => intro _ acc; rfl
  | succ n ih =>
      intro hfg acc
      rw [List.range_succ, List.foldl_append, List.foldl_append]
      rw [ih (fun c i hi => hfg c i (by omega)) acc]
      simp only [List.foldl_cons, List.foldl_nil]
      rw [hfg _ n (by omega)]

theorem foldl_flatten_bits (f : Nat → Bool → Nat) :
    ∀ (L : List (List Bool)) (acc : Nat),
      L.flatten.foldl f acc = L.foldl (fun a l => l.foldl f a) acc := by
  intro L
  induction L with
  | nil => intro acc; rfl
  | cons l ls ih =>
      intro acc
      rw [List.flatten_cons, List.foldl_append, List.foldl_cons, ih]

theorem foldl_sixteen_zero_bits (acc : Nat) :
    (List.range 16).foldl (fun c _ => updateCRC c 0) acc =
      (List.replicate 16 false).foldl updateCRCSpecBit acc := by
  simp only [show List.range 16 =
      [0, 1, 2, 3, 4, 5, 6, 7, 8, 9, 10, 11, 12, 13, 14, 15] from by decide,
    show List.replicate 16 false =
      [false, false, false, false, false, false, false, false,
        false, false, false, false, false, false, false, false] from by decide,
    List.foldl_cons, List.foldl_nil, updateCRC_zero]

end AudioMothFlash

namespace AudioMothFlash

theorem updateCRC_lt (c i : Nat) : updateCRC c i < 65536 := by
  unfold updateCRC
  dsimp only
  split_ifs <;>
    first
      | exact Nat.lt_succ_of_le Nat.and_le_right
      | exact Nat.xor_lt_two_pow (n := 16)
          (Nat.lt_succ_of_le Nat.and_le_right)
          (by norm_num [FIRMWARE_CRC_POLY])

theorem foldl_sixteen_lt (acc : Nat) :
    (List.range 16).foldl (fun c _ => updateCRC c 0) acc < 65536 := by
  rw [show List.range 16 =
      [0, 1, 2, 3, 4, 5, 6, 7, 8, 9, 10, 11, 12, 13, 14, 15] from by decide]
  simp only [List.foldl_cons, List.foldl_nil]
  exact updateCRC_lt _ _

theorem hidCRCNum_lt (data : List Nat) : hidCRCNum data < 65536 := by
  unfold hidCRCNum
  exact foldl_sixteen_lt _

theorem hidCRCNum_eq_bitstream (data : List Nat)
    (hlen : data.length ≤ AM_FIRMWARE_TOTAL_SIZE) :
    hidCRCNum data = (hidBitstream data).foldl updateCRCSpecBit 0 := by
  unfold hidCRCNum hidBitstream
  dsimp only
  have hplen : (data ++ List.replicate
      (AM_FIRMWARE_TOTAL_SIZE - data.length) 0xFF).length =
      AM_FIRMWARE_TOTAL_SIZE := by
    rw [List.length_append, List.length_replicate]
    omega
  have hidx : ∀ (c i : Nat), i < AM_FIRMWARE_TOTAL_SIZE →
      (fun c i => hidByteFold c
        (if i < data.length then data.getD i 0 else 0xFF)) c i =
      (fun c i => hidByteFold c
        ((data ++ List.replicate
          (AM_FIRMWARE_TOTAL_SIZE - data.length) 0xFF).getD i 0)) c i := by
    intro c i hi
    simp only
    congr 1
    by_cases hil : i < data.length
    · rw [if_pos hil, List.getD_append _ _ _ _ hil]
    · rw [if_neg hil, List.getD_append_right _ _ _ _ (by omega)]
      rw [List.getD_eq_getElem _ _ (by rw [List.length_replicate]; omega)]
      rw [List.getElem_replicate]
  rw [foldl_range_congr _ _ AM_FIRMWARE_TOTAL_SIZE hidx 0]
  have hfold := foldl_range_getD hidByteFold
    (data ++ List.replicate (AM_FIRMWARE_TOTAL_SIZE - data.length) 0xFF) 0
  rw [hplen] at hfold
  rw [hfold]
  conv_rhs => rw [List.foldl_append]
  conv_rhs => rw [foldl_flatten_bits, List.foldl_map]
  rw [show hidByteFold = fun a byte =>
      (byteBitsMSB byte).foldl updateCRCSpecBit a from
    funext fun c => funext fun byte => hidByteFold_eq_bits c byte]
  rw [foldl_sixteen_zero_bits]

theorem hidBitstream_length (data : List Nat)
    (hlen : data.length ≤ AM_FIRMWARE_TOTAL_SIZE) :
    (hidBitstream data).length = 240 * 1024 * 8 + 16 := by
  unfold hidBitstream
  rw [List.length_append, List.length_flatten, List.map_map,
    List.length_replicate]
  rw [show (List.length ∘ byteBitsMSB) = fun _ : Nat => 8 from
    funext fun b => rfl]
  rw [List.map_const', List.sum_const_nat, List.length_append,
    List.length_replicate]
  have : data.length + (AM_FIRMWARE_TOTAL_SIZE - data.length) =
      AM_FIRMWARE_TOTAL_SIZE := by omega
  rw [this]
  rfl

theorem renderHex4Upper_length (n : Nat) :
    (renderHex4Upper n).length = 4 := by
  unfold renderHex4Upper
  rw [List.length_drop, List.length_append, List.length_replicate]
  omega

/-- claim C4: with no supplied expected CRC, the USB-HID flasher derives
it by processing exactly `240 * 1024 * 8 + 16` bits MSB-first — the
image bytes, then `0xFF` padding up to 240 KiB, then 16 trailing zero
bits — through the bit update
`xor = c >> 15; c = (c << 1) & 0xFFFF; if bit: c |= 1; if xor: c ^= 0x1021`
starting from `c = 0`, and renders the result as four uppercase
hexadecimal digit characters. -/
theorem c4_usbhid_image_crc (firmwareData : List Nat)
    (hlen : firmwareData.length ≤ AM_FIRMWARE_TOTAL_SIZE) :
    (hidBitstream firmwareData).length = 240 * 1024 * 8 + 16 ∧
    hidExpectedCRC firmwareData =
      renderHex4Upper ((hidBitstream firmwareData).foldl updateCRCSpecBit 0) ∧
    (hidExpectedCRC firmwareData).length = 4 := by
  refine ⟨hidBitstream_length _ hlen, ?_, ?_⟩
  · unfold hidExpectedCRC
    rw [hidCRCNum_eq_bitstream _ hlen]
  · unfold hidExpectedCRC
    exact renderHex4Upper_length _

/-- claim C4, witness: the theorem instantiated at the empty image. -/
theorem c4_usbhid_image_crc_witness :
    (hidBitstream []).length = 240 * 1024 * 8 + 16 ∧
    hidExpectedCRC [] =
      renderHex4Upper ((hidBitstream []).foldl updateCRCSpecBit 0) ∧
    (hidExpectedCRC []).length = 4 :=
  c4_usbhid_image_crc [] (by decide)

end AudioMothFlash

namespace AudioMothFlash

/-! ## Size gates and dispatch (claims C6, C7) -/

/-- claim C6, counterexample: an image of `0x34000 + 1` bytes passes the
local-flash validation (the only pre-flight size gate on this path),
and the dispatcher still routes the job to the USB-HID flasher, which
performs no size comparison of its own before contacting the device.
The `0x34000` limit in the source guards only the MSD (USB drive) path. -/
theorem c6_counterexample :
    flashButtonLocalCheck true true (MAX_FILE_SIZE_MSD + 1) false = none ∧
    flashButtonOnClick
      ⟨false, false, false, true, true, true, false, false,
        STATUS_AUDIOMOTH_AUTO, true⟩ = FlashRoute.usbhid ∧
    MAX_FILE_SIZE_MSD + 1 > MAX_FILE_SIZE_MSD ∧
    MAX_FILE_SIZE_MSD + 1 ≤ MAX_FILE_SIZE := by
  refine ⟨by decide, by decide, by decide, by decide⟩

/-- claim C6 (amended): the pre-flight size gates are
`size > MAX_FILE_SIZE_DESTRUCTIVE` for a destructive local flash and
`size > MAX_FILE_SIZE` for a non-destructive one, both enforced by the
local flash button before any device interaction; the `0x34000` gate
belongs to the MSD (USB drive) upload path, and the USB-HID path has no
size gate of its own. -/
theorem c6_size_gates_amended (haveFile filePresent : Bool) (size : Nat)
    (dc : Bool) :
    (haveFile = true → filePresent = true →
      (flashButtonLocalCheck haveFile filePresent size dc =
          some LocalFlashError.fileTooLarge ↔
        size > (if dc then MAX_FILE_SIZE_DESTRUCTIVE else MAX_FILE_SIZE))) ∧
    (msdSizeGateRejects size = true ↔ size > MAX_FILE_SIZE_MSD) := by
  constructor
  · intro h1 h2
    subst h1
    subst h2
    unfold flashButtonLocalCheck
    simp only [Bool.not_true, Bool.false_eq_true, if_false]
    split_ifs with hdc hgt hgt <;> simp_all
  · unfold msdSizeGateRejects
    simp

/-- claim C6, witness: the amended gates instantiated at a 300000-byte
non-destructive job. -/
theorem c6_size_gates_amended_witness :
    (flashButtonLocalCheck true true 300000 false =
        some LocalFlashError.fileTooLarge ↔
      300000 > (if false then MAX_FILE_SIZE_DESTRUCTIVE
        else MAX_FILE_SIZE)) ∧
    (msdSizeGateRejects 300000 = true ↔ 300000 > MAX_FILE_SIZE_MSD) :=
  ⟨(c6_size_gates_amended true true 300000 false).1 rfl rfl,
    (c6_size_gates_amended true true 300000 false).2⟩

/-- claim C7, counterexample: with `preferUSBHID = true`,
`usbhid = true`, `destructive = false` and the device in running
firmware (not the serial bootloader), the dispatcher still chooses the
serial path when the overwrite-bootloader menu option is enabled and the
destructive checkbox is checked — the source consults
`overwriteBootloaderOptionEnabled && destructiveCheckbox.checked`
rather than the job parameter `destructive`. -/
theorem c7_counterexample :
    flashButtonOnClick
        ⟨false, false, false, true, true, true, true, true,
          STATUS_AUDIOMOTH_AUTO, true⟩ = FlashRoute.serial ∧
    (false = false ∧ (true : Bool) = true ∧ (true : Bool) = true ∧
      STATUS_AUDIOMOTH_AUTO ≠ STATUS_SERIAL_BOOTLOADER) ∧
    flashButtonOnClick
        ⟨false, false, false, true, true, true, true, true,
          STATUS_AUDIOMOTH_AUTO, true⟩ ≠ FlashRoute.usbhid := by
  refine ⟨by decide, by decide, by decide⟩

/-- claim C7 (amended): the dispatcher selects the USB-HID flasher if
and only if: the session is not already communicating; the
destructive-image guards pass; USB-HID flashing is preferred and
supported; the overwrite-bootloader option and the destructive checkbox
are not both enabled (the source tests this pair, not the `destructive`
parameter); the device is not in the serial bootloader; and the
firmware file name is a valid `.bin` name. -/
theorem c7_dispatch_amended (s : DispatchState) :
    flashButtonOnClick s = FlashRoute.usbhid ↔
      (s.communicating = false ∧
       (s.destructive = true → s.filenameMatchesRelease = false) ∧
       (s.destructive = true → s.userConfirmsOverwrite = true) ∧
       s.useUSBHIDFlashing = true ∧ s.supportsUSBHIDFlash = true ∧
       (s.overwriteBootloaderOptionEnabled = false ∨
        s.destructiveCheckboxChecked = false) ∧
       (s.deviceStatus == STATUS_SERIAL_BOOTLOADER) = false ∧
       s.firmwareNameValid = true) := by
  rcases s with ⟨comm, dest, fmr, uco, use, sup, owo, dcc, status, fnv⟩
  unfold flashButtonOnClick
  dsimp only
  split_ifs with h1 h2 h3 h4 h5 <;> simp_all <;> tauto

/-- claim C7, witness: the amended dispatch condition instantiated at a
state that does select the USB-HID flasher. -/
theorem c7_dispatch_amended_witness :
    flashButtonOnClick
        ⟨false, false, false, true, true, true, false, false,
          STATUS_AUDIOMOTH_AUTO, true⟩ = FlashRoute.usbhid ↔
      ((false : Bool) = false ∧
       ((false : Bool) = true → (false : Bool) = false) ∧
       ((false : Bool) = true → (true : Bool) = true) ∧
       (true : Bool) = true ∧ (true : Bool) = true ∧
       ((false : Bool) = false ∨ (false : Bool) = false) ∧
       (STATUS_AUDIOMOTH_AUTO == STATUS_SERIAL_BOOTLOADER) = false ∧
       (true : Bool) = true) :=
  c7_dispatch_amended
    ⟨false, false, false, true, true, true, false, false,
      STATUS_AUDIOMOTH_AUTO, true⟩

end AudioMothFlash

namespace AudioMothFlash

/-! ## CRC verification outcome (claim C8) -/

/-- claim C8: after the CRC response is received, the trailing four
characters are taken as `receivedCRC`; a supplied `expectedCRC` that
differs terminates the job with a CRC-mismatch failure and no reset is
issued; a matching one proceeds to the reset; with no `expectedCRC` the
received value is passed through as informational and the reset
proceeds. -/
theorem c8_crcCheck_verification (response e : List Char) :
    (4 ≤ response.length →
      (response.drop (response.length - 4)).length = 4) ∧
    (e ≠ response.drop (response.length - 4) →
      crcCheck response (some e) =
        CrcCheckOutcome.mismatchFailure e
          (response.drop (response.length - 4)) ∧
      ∀ info, crcCheck response (some e) ≠
        CrcCheckOutcome.resetDevice info) ∧
    (e = response.drop (response.length - 4) →
      crcCheck response (some e) = CrcCheckOutcome.resetDevice none) ∧
    crcCheck response none =
      CrcCheckOutcome.resetDevice
        (some (response.drop (response.length - 4))) := by
  refine ⟨?_, ?_, ?_, rfl⟩
  · intro h4
    rw [List.length_drop]
    omega
  · intro hne
    have heq : crcCheck response (some e) =
        CrcCheckOutcome.mismatchFailure e
          (response.drop (response.length - 4)) := by
      unfold crcCheck
      dsimp only
      rw [if_neg (fun hh => hne hh.symm)]
    refine ⟨heq, ?_⟩
    intro info
    rw [heq]
    intro hcontra
    cases hcontra
  · intro heq
    unfold crcCheck
    dsimp only
    rw [if_pos heq.symm]

/-- claim C8, witness: the spec scenario — the device reports
`CRC: 00009999` while the expected CRC is `A435`; the outcome is a
mismatch failure carrying expected `A435` and received `9999`, and no
reset is issued. -/
theorem c8_crcCheck_verification_witness :
    (4 ≤ ("CRC: 00009999".toList).length →
      (("CRC: 00009999".toList).drop
        (("CRC: 00009999".toList).length - 4)).length = 4) ∧
    ("A435".toList ≠ ("CRC: 00009999".toList).drop
        (("CRC: 00009999".toList).length - 4) →
      crcCheck ("CRC: 00009999".toList) (some ("A435".toList)) =
        CrcCheckOutcome.mismatchFailure ("A435".toList)
          (("CRC: 00009999".toList).drop
            (("CRC: 00009999".toList).length - 4)) ∧
      ∀ info, crcCheck ("CRC: 00009999".toList) (some ("A435".toList)) ≠
        CrcCheckOutcome.resetDevice info) ∧
    ("A435".toList = ("CRC: 00009999".toList).drop
        (("CRC: 00009999".toList).length - 4) →
      crcCheck ("CRC: 00009999".toList) (some ("A435".toList)) =
        CrcCheckOutcome.resetDevice none) ∧
    crcCheck ("CRC: 00009999".toList) none =
      CrcCheckOutcome.resetDevice
        (some (("CRC: 00009999".toList).drop
          (("CRC: 00009999".toList).length - 4))) :=
  c8_crcCheck_verification ("CRC: 00009999".toList) ("A435".toList)

end AudioMothFlash

namespace AudioMothFlash

/-! ## Port-open retry behaviour (claim C9) -/

theorem openPortAttemptLoop_attempts_pos (avail : Nat → Bool)
    (r fuel : Nat) : 1 ≤ (openPortAttemptLoop avail r fuel).attempts := by
  cases fuel with
  | zero => exact le_refl 1
  | succ fuel =>
      unfold openPortAttemptLoop
      split_ifs <;> simp

theorem openPortAttemptLoop_spec :
    ∀ (fuel r : Nat) (avail : Nat → Bool),
    MAX_PORT_OPEN_ATTEMPTS + 2 ≤ r + fuel →
    r ≤ MAX_PORT_OPEN_ATTEMPTS + 1 →
    (openPortAttemptLoop avail r fuel).attempts ≤
      MAX_PORT_OPEN_ATTEMPTS + 2 - r ∧
    ((openPortAttemptLoop avail r fuel).opened = false →
      (openPortAttemptLoop avail r fuel).attempts =
        MAX_PORT_OPEN_ATTEMPTS + 2 - r) ∧
    (openPortAttemptLoop avail r fuel).delays =
      (List.range ((openPortAttemptLoop avail r fuel).attempts - 1)).map
        (fun k => PORT_OPEN_ATTEMPT_DELAY * 2 ^ (r + k)) := by
  intro fuel
  induction fuel with
  | zero =>
      intro r avail hfuel hr
      simp only [MAX_PORT_OPEN_ATTEMPTS] at hfuel hr
      omega
  | succ fuel ih =>
      intro r avail hfuel hr
      unfold openPortAttemptLoop
      by_cases hav : avail r = true
      · rw [if_pos hav]
        refine ⟨?_, ?_, by simp⟩
        · simp only [MAX_PORT_OPEN_ATTEMPTS] at hr ⊢
          omega
        · intro hfalse
          simp at hfalse
      · rw [if_neg hav]
        by_cases hrm : r ≤ MAX_PORT_OPEN_ATTEMPTS
        · rw [if_pos hrm]
          obtain ⟨iha, iho, ihd⟩ := ih (r + 1) avail (by omega)
            (by simp only [MAX_PORT_OPEN_ATTEMPTS] at hrm ⊢; omega)
          have hpos := openPortAttemptLoop_attempts_pos avail (r + 1) fuel
          refine ⟨?_, ?_, ?_⟩
          · simp only [MAX_PORT_OPEN_ATTEMPTS] at iha hrm ⊢
            omega
          · intro hop
            simp only at hop
            simp only [MAX_PORT_OPEN_ATTEMPTS] at iho hrm ⊢
            have := iho hop
            omega
          · simp only
            rw [ihd]
            have hm : (openPortAttemptLoop avail (r + 1) fuel).attempts =
                ((openPortAttemptLoop avail (r + 1) fuel).attempts - 1) + 1 :=
              by omega
            rw [show (openPortAttemptLoop avail (r + 1) fuel).attempts + 1 - 1 =
                (((openPortAttemptLoop avail (r + 1) fuel).attempts - 1) + 1)
              from by omega]
            rw [List.range_succ_eq_map, List.map_cons, List.map_map]
            congr 1
            apply List.map_congr_left
            intro a _
            simp only [Function.comp_apply, Nat.succ_eq_add_one]
            rw [show r + 1 + a = r + (a + 1) from by omega]
        · rw [if_neg hrm]
          dsimp only
          simp only [MAX_PORT_OPEN_ATTEMPTS] at hrm hr ⊢
          refine ⟨by omega, fun _ => by omega, by simp⟩

end AudioMothFlash

namespace AudioMothFlash

/-- claim C9, counterexample: with the device never visible, the
port-name lookup runs seven times, not five — the guard
`portOpenReattempts <= MAX_PORT_OPEN_ATTEMPTS` is checked before the
counter is incremented, so the initial attempt is followed by six
retries, with delays `500 * 2 ** k` for `k = 0..5`. -/
theorem c9_counterexample :
    openPortRun (fun _ => false) =
      ⟨7, [500, 1000, 2000, 4000, 8000, 16000], false⟩ ∧
    ¬(openPortRun (fun _ => false)).attempts ≤ MAX_PORT_OPEN_ATTEMPTS := by
  refine ⟨by decide, by decide⟩

/-- claim C9 (amended): opening the serial port is attempted at most
`MAX_PORT_OPEN_ATTEMPTS + 2 = 7` times (the first attempt plus six
retries, because the retry guard compares the counter before
incrementing it), with a delay of `500 * 2 ** attempt` milliseconds
before retry number `attempt + 1`; when every attempt fails, all seven
run and the job ends in the communication-failure (port unavailable)
error path. -/
theorem c9_port_open_retries_amended (avail : Nat → Bool) :
    (openPortRun avail).attempts ≤ MAX_PORT_OPEN_ATTEMPTS + 2 ∧
    ((openPortRun avail).opened = false →
      (openPortRun avail).attempts = MAX_PORT_OPEN_ATTEMPTS + 2) ∧
    (openPortRun avail).delays =
      (List.range ((openPortRun avail).attempts - 1)).map
        (fun k => PORT_OPEN_ATTEMPT_DELAY * 2 ^ k) := by
  obtain ⟨ha, ho, hd⟩ :=
    openPortAttemptLoop_spec (MAX_PORT_OPEN_ATTEMPTS + 2) 0 avail
      (by omega) (by omega)
  refine ⟨?_, ?_, ?_⟩
  · simpa using ha
  · intro hop
    have := ho hop
    simpa using this
  · rw [show openPortRun avail =
      openPortAttemptLoop avail 0 (MAX_PORT_OPEN_ATTEMPTS + 2) from rfl]
    rw [hd]
    apply List.map_congr_left
    intro a _
    rw [Nat.zero_add]

/-- claim C9, witness: the amended retry bound applied to the
never-available port, with the failure branch discharged. -/
theorem c9_port_open_retries_amended_witness :
    (openPortRun (fun _ => true)).attempts ≤ MAX_PORT_OPEN_ATTEMPTS + 2 ∧
    ((openPortRun (fun _ => true)).opened = false →
      (openPortRun (fun _ => true)).attempts = MAX_PORT_OPEN_ATTEMPTS + 2) ∧
    (openPortRun (fun _ => true)).delays =
      (List.range ((openPortRun (fun _ => true)).attempts - 1)).map
        (fun k => PORT_OPEN_ATTEMPT_DELAY * 2 ^ k) :=
  c9_port_open_retries_amended (fun _ => true)

end AudioMothFlash
